import Mathlib

/-!
Verification of the room-scoped broadcast and session-lifecycle engine of
server.js (a WebSocket presence/relay server).  The server's two shared
maps (clients and rooms), its message handlers (join, pos, chat), its
close handler, its broadcast fan-out and its periodic empty-room sweep
are embedded as pure Lean functions over an explicit server state; the
outbound network traffic of one handler invocation is returned as a list
of recipient/message pairs.  JavaScript Map and Set are modelled as
insertion-ordered association lists, Date.now() as a natural-number
argument, and the possibility that ws.send throws as a boolean oracle
over target ids.
-/

namespace GrassyWanderer

/-- Session identifiers: the string ids issued by makeId. -/
abbrev SessionId := String

/-- Per-connection client record created in the connection handler of
server.js.  The ws handle is modelled by its one observable used by the
core: wsOpen, true exactly when readyState equals OPEN.  JavaScript
numbers for x, y, size are modelled as integers; no claim depends on
fractional or overflow behaviour of positions. -/
structure Client where
  wsOpen : Bool
  name : Option String
  avatar : Option String
  room : Option String
  x : Int
  y : Int
  size : Int
  color : String
  lastPong : Nat
  lastUpdate : Nat
  lastChatAt : Nat
  lastPosAt : Nat
deriving DecidableEq

/-- The two shared maps of server.js: clients (id to record) and rooms
(room name to set of member ids), as insertion-ordered association
lists matching Map and Set iteration order. -/
structure ServerState where
  clients : List (SessionId × Client)
  rooms : List (String × List SessionId)
deriving DecidableEq

/-- Map.get: first binding of the key, if any. -/
def alookup (k : String) : List (String × α) → Option α
  | [] => none
  | (k1, v) :: rest => if k1 = k then some v else alookup k rest

/-- Map.set: overwrite in place if the key is bound, else append
(JavaScript Map.set keeps the original insertion position). -/
def aupdate (k : String) (v : α) : List (String × α) → List (String × α)
  | [] => [(k, v)]
  | (k1, v1) :: rest =>
      if k1 = k then (k, v) :: rest else (k1, v1) :: aupdate k v rest

/-- Map.delete: drop every binding of the key. -/
def aerase (k : String) : List (String × α) → List (String × α)
  | [] => []
  | (k1, v) :: rest =>
      if k1 = k then aerase k rest else (k1, v) :: aerase k rest

/-- Set.add: append if not already a member. -/
def sadd (x : SessionId) (l : List SessionId) : List SessionId :=
  if x ∈ l then l else l ++ [x]

/-- Set.delete: remove the element. -/
def sdel (x : SessionId) : List SessionId → List SessionId
  | [] => []
  | y :: rest => if y = x then sdel x rest else y :: sdel x rest

/-- Member set of a room, empty when the room entry is absent. -/
def membersOf (room : String) (st : ServerState) : List SessionId :=
  (alookup room st.rooms).getD []

/-- Character-list core of String.prototype.trim: strip whitespace from
both ends. -/
def trimChars (l : List Char) : List Char :=
  ((l.dropWhile Char.isWhitespace).reverse.dropWhile Char.isWhitespace).reverse

/-- String.prototype.trim. -/
def strTrim (s : String) : String := String.mk (trimChars s.data)

/-- String.prototype.slice with arguments 0 and n. -/
def strTake (s : String) (n : Nat) : String := String.mk (s.data.take n)

/-- String length (character count). -/
def strLen (s : String) : Nat := s.data.length

/-- id.slice with argument negative 4: the last four characters. -/
def lastFour (s : String) : String :=
  String.mk (s.data.drop (s.data.length - 4))

/-- safeString(v, fallback, maxLen) of server.js: non-strings fall back,
the string is trimmed, an empty trim falls back, an over-long trim is
truncated.  The input is an Option to model a value that is absent or
not a string; the fallback may be null (used for avatar). -/
def safeString (v : Option String) (fallback : Option String) (maxLen : Nat) :
    Option String :=
  match v with
  | none => fallback
  | some s =>
      let t := strTrim s
      if strLen t = 0 then fallback
      else if strLen t > maxLen then some (strTake t maxLen) else some t

/-- safeString specialised to a non-null string fallback, returning a
plain string (the result is then always a string, as in the join and
chat handlers of server.js). -/
def safeStringD (v : Option String) (fallback : String) (maxLen : Nat) :
    String :=
  (safeString v (some fallback) maxLen).getD fallback

/-- JavaScript truthiness adjustment a || b for two optional strings:
an absent or empty left operand yields the right operand. -/
def jsOr (a b : Option String) : Option String :=
  match a with
  | some s => if s = "" then b else some s
  | none => b

/-- JavaScript c.avatar || null: an empty string becomes null. -/
def orNull (a : Option String) : Option String :=
  match a with
  | some s => if s = "" then none else some s
  | none => none

/-- Public roster entry built by sendPlayersListTo. -/
structure PlayerInfo where
  id : SessionId
  name : Option String
  avatar : Option String
  x : Int
  y : Int
  size : Int
  color : String
deriving DecidableEq

/-- Outbound wire messages of server.js. -/
inductive OutMsg where
  | idMsg (id : SessionId)
  | players (players : List PlayerInfo)
  | joined (room : String)
  | playerJoined (player : PlayerInfo)
  | posMsg (id : SessionId) (x y size : Int) (color : String)
      (avatar : Option String) (name : Option String)
  | chat (id : SessionId) (name : String) (text : String)
  | playerLeft (id : SessionId)
deriving DecidableEq

/-- One delivered message: recipient id paired with the payload. -/
abbrev Output := List (SessionId × OutMsg)

/-- set.delete(id) performed on the set object bound to a room name:
update the room entry if it exists. -/
def delMember (room : String) (i : SessionId)
    (rooms : List (String × List SessionId)) : List (String × List SessionId) :=
  match alookup room rooms with
  | none => rooms
  | some set => aupdate room (sdel i set) rooms

/-- rooms.get(room).add(id) with lazy creation, as in the join handler. -/
def roomAdd (room : String) (i : SessionId)
    (rooms : List (String × List SessionId)) : List (String × List SessionId) :=
  match alookup room rooms with
  | none => aupdate room [i] rooms
  | some set => aupdate room (sadd i set) rooms

/-- Body of the broadcastToRoom loop of server.js, iterating the
snapshot Array.from(set).  For each id: skip the excluded id; an id
absent from clients is deleted from the room set; a non-open socket
causes deletion from both maps; a send whose attempt throws (fails id)
causes terminate plus deletion from both maps; otherwise the payload is
delivered.  The loop continues past every failure. -/
def bcastLoop (fails : SessionId → Bool) (payload : OutMsg)
    (exceptId : Option SessionId) (room : String) :
    List SessionId → ServerState → Output → ServerState × Output
  | [], st, acc => (st, acc)
  | i :: rest, st, acc =>
    if exceptId = some i then
      bcastLoop fails payload exceptId room rest st acc
    else
      match alookup i st.clients with
      | none =>
          bcastLoop fails payload exceptId room rest
            { st with rooms := delMember room i st.rooms } acc
      | some c =>
          if c.wsOpen = false then
            bcastLoop fails payload exceptId room rest
              { st with rooms := delMember room i st.rooms,
                        clients := aerase i st.clients } acc
          else if fails i then
            bcastLoop fails payload exceptId room rest
              { st with rooms := delMember room i st.rooms,
                        clients := aerase i st.clients } acc
          else
            bcastLoop fails payload exceptId room rest st (acc ++ [(i, payload)])

/-- broadcastToRoom(room, payload, exceptId) of server.js. -/
def broadcastToRoom (fails : SessionId → Bool) (room : String)
    (payload : OutMsg) (exceptId : Option SessionId) (st : ServerState) :
    ServerState × Output :=
  match alookup room st.rooms with
  | none => (st, [])
  | some set => bcastLoop fails payload exceptId room set st []

/-- Roster built by sendPlayersListTo: members of the room that are
present in clients, with the defaulting of the source (size falsy gives
60, color falsy gives the default red, avatar falsy gives null). -/
def playersOf (room : String) (st : ServerState) : List PlayerInfo :=
  (membersOf room st).filterMap fun i =>
    match alookup i st.clients with
    | none => none
    | some c =>
        some { id := i, name := c.name, avatar := orNull c.avatar,
               x := c.x, y := c.y,
               size := if c.size = 0 then 60 else c.size,
               color := if c.color = "" then "#e74c3c" else c.color }

/-- sendPlayersListTo(ws, room) of server.js, ws being the socket of the
joining session: one players message to the joiner when its socket is
open and the send does not throw. -/
def sendPlayersListTo (fails : SessionId → Bool) (joiner : SessionId)
    (room : String) (st : ServerState) : Output :=
  match alookup joiner st.clients with
  | some c =>
      if c.wsOpen && !fails joiner then [(joiner, OutMsg.players (playersOf room st))]
      else []
  | none => []

/-- Inbound join message: each field is some only when present with the
type the source tests for. -/
structure JoinMsg where
  name : Option String
  avatar : Option String
  room : Option String
  x : Option Int
  y : Option Int
  size : Option Int
  color : Option String
deriving DecidableEq

/-- Inbound pos message. -/
structure PosMsg where
  x : Option Int
  y : Option Int
  size : Option Int
  color : Option String
  avatar : Option String
deriving DecidableEq

/-- Inbound chat message; text is none when absent or not a string,
name is none when absent. -/
structure ChatMsg where
  text : Option String
  name : Option String
deriving DecidableEq

/-- Connection handler prelude of server.js: register a fresh default
client record and send the id message. -/
def handleConnect (fails : SessionId → Bool) (id : SessionId) (now : Nat)
    (st : ServerState) : ServerState × Output :=
  let fresh : Client :=
    { wsOpen := true, name := none, avatar := none, room := none,
      x := 0, y := 0, size := 60, color := "#e74c3c",
      lastPong := now, lastUpdate := now, lastChatAt := 0, lastPosAt := 0 }
  ( { st with clients := aupdate id fresh st.clients },
    if fails id then [] else [(id, OutMsg.idMsg id)] )

/-- Room name a join message resolves to. -/
def joinRoomName (msg : JoinMsg) : String := safeStringD msg.room "lobby" 64

/-- Field sanitization of the join handler applied to the stored client
record: name, avatar and room through safeString with their fallbacks
and caps, numeric fields coerced when present, color through safeString
capped at 32 with the current color as fallback. -/
def joinClient (id : SessionId) (now : Nat) (msg : JoinMsg) (client : Client) :
    Client :=
  { client with
    name := some (safeStringD msg.name ("Player-" ++ lastFour id) 64),
    avatar := safeString msg.avatar none 1024,
    room := some (joinRoomName msg),
    x := msg.x.getD client.x,
    y := msg.y.getD client.y,
    size := msg.size.getD client.size,
    color := match msg.color with
             | some s => safeStringD (some s) client.color 32
             | none => client.color,
    lastUpdate := now }

/-- The join case of the message handler of server.js: sanitize fields
into the client record, add the id to the (lazily created) room set,
send the roster to the joiner, broadcast playerJoined to the others,
then send the joined acknowledgement to the joiner. -/
def handleJoin (fails : SessionId → Bool) (id : SessionId) (now : Nat)
    (msg : JoinMsg) (st : ServerState) : ServerState × Output :=
  match alookup id st.clients with
  | none => (st, [])
  | some client =>
      let client1 : Client := joinClient id now msg client
      let rm := joinRoomName msg
      let st1 : ServerState :=
        { st with clients := aupdate id client1 st.clients }
      let st2 : ServerState := { st1 with rooms := roomAdd rm id st1.rooms }
      let out1 := sendPlayersListTo fails id rm st2
      let pj : OutMsg := OutMsg.playerJoined
        { id := id, name := client1.name, avatar := orNull client1.avatar,
          x := client1.x, y := client1.y, size := client1.size,
          color := client1.color }
      let res := broadcastToRoom fails rm pj (some id) st2
      let out3 :=
        match alookup id res.1.clients with
        | some c =>
            if c.wsOpen && !fails id then [(id, OutMsg.joined rm)] else []
        | none => []
      (res.1, out1 ++ res.2 ++ out3)

/-- The pos case of the message handler of server.js: a rate gate of
30 ms since the last accepted position update guards the entire case;
past the gate, fields are coerced and a pos event is broadcast to the
other room members when the session has a room. -/
def handlePos (fails : SessionId → Bool) (id : SessionId) (now : Nat)
    (msg : PosMsg) (st : ServerState) : ServerState × Output :=
  match alookup id st.clients with
  | none => (st, [])
  | some client =>
      if now - client.lastPosAt < 30 then (st, [])
      else
        let client1 : Client :=
          { client with
            lastPosAt := now,
            x := msg.x.getD client.x,
            y := msg.y.getD client.y,
            size := msg.size.getD client.size,
            color := match msg.color with
                     | some s => safeStringD (some s) client.color 32
                     | none => client.color,
            avatar := match msg.avatar with
                      | some s =>
                          if strLen s > 0 then safeString (some s) client.avatar 1024
                          else client.avatar
                      | none => client.avatar,
            lastUpdate := now }
        let st1 : ServerState :=
          { st with clients := aupdate id client1 st.clients }
        match client1.room with
        | some r =>
            broadcastToRoom fails r
              (OutMsg.posMsg id client1.x client1.y client1.size client1.color
                (orNull client1.avatar) client1.name) (some id) st1
        | none => (st1, [])

/-- Sanitized chat text: trim, then truncate to 500 characters. -/
def chatText (msg : ChatMsg) : String :=
  let t := strTrim (msg.text.getD "")
  if strLen t > 500 then strTake t 500 else t

/-- Display name resolved by the chat handler: msg.name or the session
name, through safeString with the Player fallback. -/
def chatName (id : SessionId) (client : Client) (msg : ChatMsg) : String :=
  safeStringD (jsOr msg.name client.name) ("Player-" ++ lastFour id) 64

/-- The chat case of the message handler of server.js: a 300 ms rate
gate, then the timestamp is recorded, the text trimmed (dropping the
message when empty), truncated to 500 characters, and the chat event is
broadcast to the whole room, or echoed to the sender alone when the
session has no room. -/
def handleChat (fails : SessionId → Bool) (id : SessionId) (now : Nat)
    (msg : ChatMsg) (st : ServerState) : ServerState × Output :=
  match alookup id st.clients with
  | none => (st, [])
  | some client =>
      if now - client.lastChatAt < 300 then (st, [])
      else
        let client1 : Client := { client with lastChatAt := now }
        let st1 : ServerState :=
          { st with clients := aupdate id client1 st.clients }
        if strTrim (msg.text.getD "") = "" then (st1, [])
        else
          let payload : OutMsg := OutMsg.chat id (chatName id client msg) (chatText msg)
          match client1.room with
          | some r => broadcastToRoom fails r payload none st1
          | none =>
              (st1, if client1.wsOpen && !fails id then [(id, payload)] else [])

/-- The close handler of server.js: when the session is still
registered and bound to a (truthy) room that exists, remove it from the
room set, broadcast playerLeft, delete the room if its set is now
empty, and finally delete the session from clients.  Absent sessions
are a no-op. -/
def handleClose (fails : SessionId → Bool) (id : SessionId) (st : ServerState) :
    ServerState × Output :=
  match alookup id st.clients with
  | none => (st, [])
  | some client =>
      match client.room with
      | some room =>
          if room = "" then ({ st with clients := aerase id st.clients }, [])
          else
            match alookup room st.rooms with
            | some set =>
                let st1 : ServerState :=
                  { st with rooms := aupdate room (sdel id set) st.rooms }
                let res := broadcastToRoom fails room (OutMsg.playerLeft id) none st1
                let st3 : ServerState :=
                  match alookup room res.1.rooms with
                  | some set2 =>
                      if set2 = [] then { res.1 with rooms := aerase room res.1.rooms }
                      else res.1
                  | none => res.1
                ({ st3 with clients := aerase id st3.clients }, res.2)
            | none => ({ st with clients := aerase id st.clients }, [])
      | none => ({ st with clients := aerase id st.clients }, [])

/-- The periodic empty-room sweep of server.js: delete every room entry
whose member set is empty. -/
def sweepEmpty (st : ServerState) : ServerState :=
  { st with rooms := st.rooms.filter (fun p => !p.2.isEmpty) }

/-- Base-36 digits of a natural number, least significant first, with a
fuel argument for structural recursion (fuel n is always enough). -/
def base36DigitsAux : Nat → Nat → List Nat
  | 0, _ => []
  | fuel + 1, n => if n = 0 then [] else (n % 36) :: base36DigitsAux fuel (n / 36)

/-- Base-36 digits of a natural number, least significant first. -/
def base36Digits (n : Nat) : List Nat := base36DigitsAux n n

/-- Character of one base-36 digit as used by JavaScript
Number.prototype.toString(36): digits below ten map to the decimal
digit characters (codepoint 48 onward), the rest to the lowercase
letters (codepoint 97 for digit ten onward). -/
def digitChar36 (d : Nat) : Char :=
  if d < 10 then Char.ofNat (48 + d) else Char.ofNat (87 + d)

/-- n.toString(36) of JavaScript for a natural number n. -/
def natToBase36 (n : Nat) : String :=
  if n = 0 then "0"
  else String.mk ((base36Digits n).reverse.map digitChar36)

/-- makeId() of server.js: Date.now().toString(36) concatenated with
Math.random().toString(36).slice(2, 8).  The inputs it consumes are the
current time in milliseconds and the random suffix (zero to six base-36
fraction characters); no client-supplied data enters. -/
def makeId (timeMs : Nat) (randSuffix : String) : String :=
  natToBase36 timeMs ++ randSuffix

/-- True when a broadcast iteration would deliver to the id: present in
clients, socket open, send does not throw. -/
def deliverable (fails : SessionId → Bool) (st : ServerState) (i : SessionId) :
    Bool :=
  match alookup i st.clients with
  | some c => c.wsOpen && !fails i
  | none => false

/-- True when broadcastToRoom with the given exclusion delivers to the
id from the given state. -/
def wouldDeliver (fails : SessionId → Bool) (st : ServerState)
    (exceptId : Option SessionId) (i : SessionId) : Bool :=
  if exceptId = some i then false else deliverable fails st i

/-- Failure oracle under which every send succeeds. -/
def noFail : SessionId → Bool := fun _ => false

/-- The empty server state. -/
def emptyState : ServerState := { clients := [], rooms := [] }

/-- Value of a natural number written in little-endian base-36 digits. -/
def ofBase36 : List Nat → Nat
  | [] => 0
  | d :: ds => d + 36 * ofBase36 ds

/-- Join message selecting a room, with the display name Zoe. -/
def joinMsgTo (r : String) : JoinMsg :=
  { name := some "Zoe", avatar := none, room := some r,
    x := none, y := none, size := none, color := none }

/-- State after one client s1 connects to an empty server. -/
def trace1 : ServerState := (handleConnect noFail "s1" 0 emptyState).1

/-- State after s1 additionally joins room a. -/
def trace2 : ServerState := (handleJoin noFail "s1" 1 (joinMsgTo "a") trace1).1

/-- State after s1 additionally joins room b while still a member of a. -/
def trace3 : ServerState := (handleJoin noFail "s1" 2 (joinMsgTo "b") trace2).1

/-- State after the close handler then runs for s1. -/
def trace4 : ServerState := (handleClose noFail "s1" trace3).1

/-- Roster entry of the sole joiner in the concrete join scenario. -/
def pZoe : PlayerInfo :=
  { id := "s1", name := some "Zoe", avatar := none,
    x := 0, y := 0, size := 60, color := "#e74c3c" }

/-- A connected, open client bound to room r with an old accepted chat. -/
def cA : Client :=
  { wsOpen := true, name := some "A", avatar := none, room := some "r",
    x := 0, y := 0, size := 60, color := "#e74c3c",
    lastPong := 0, lastUpdate := 0, lastChatAt := 1000, lastPosAt := 50 }

/-- A second connected, open client bound to room r. -/
def cB : Client :=
  { wsOpen := true, name := some "B", avatar := none, room := some "r",
    x := 0, y := 0, size := 60, color := "#e74c3c",
    lastPong := 0, lastUpdate := 0, lastChatAt := 0, lastPosAt := 0 }

/-- A client whose socket is no longer open. -/
def cDead : Client :=
  { wsOpen := false, name := some "D", avatar := none, room := some "r",
    x := 0, y := 0, size := 60, color := "#e74c3c",
    lastPong := 0, lastUpdate := 0, lastChatAt := 0, lastPosAt := 0 }

/-- Two live members a and b of room r. -/
def stAB : ServerState :=
  { clients := [("a", cA), ("b", cB)], rooms := [("r", ["a", "b"])] }

/-- Room r holding a live member a, a dead member b, and a ghost id g
absent from the registry. -/
def stMix : ServerState :=
  { clients := [("a", cA), ("b", cDead)], rooms := [("r", ["a", "b", "g"])] }

/-- The default client record as registered for s1 at connect time 0. -/
def freshS1 : Client :=
  { wsOpen := true, name := none, avatar := none, room := none,
    x := 0, y := 0, size := 60, color := "#e74c3c",
    lastPong := 0, lastUpdate := 0, lastChatAt := 0, lastPosAt := 0 }

/-- A plain chat message. -/
def chatHi : ChatMsg := { text := some " hi there ", name := none }

/-- A whitespace-only chat message. -/
def chatWs : ChatMsg := { text := some "   ", name := none }

/-- A position update carrying only a new x coordinate. -/
def posMsg5 : PosMsg :=
  { x := some 5, y := none, size := none, color := none, avatar := none }

lemma alookup_aupdate_self (k : String) (v : α) (l : List (String × α)) :
    alookup k (aupdate k v l) = some v := by
  induction l with
  | nil => simp [aupdate, alookup]
  | cons p rest ih =>
      by_cases h : p.1 = k
      · simp [aupdate, alookup, h]
      · obtain ⟨k1, v1⟩ := p
        simp only at h
        simp [aupdate, alookup, h, ih]

lemma alookup_aupdate_ne (k j : String) (v : α) (l : List (String × α))
    (h : j ≠ k) : alookup j (aupdate k v l) = alookup j l := by
  have hkj : ¬ k = j := fun hh => h hh.symm
  induction l with
  | nil => simp [aupdate, alookup, hkj]
  | cons p rest ih =>
      obtain ⟨k1, v1⟩ := p
      by_cases hk : k1 = k
      · subst hk
        simp [aupdate, alookup, hkj]
      · by_cases hj : k1 = j
        · simp [aupdate, alookup, hk, hj, h]
        · simp [aupdate, alookup, hk, hj, ih]

lemma alookup_aerase_self (k : String) (l : List (String × α)) :
    alookup k (aerase k l) = none := by
  induction l with
  | nil => simp [aerase, alookup]
  | cons p rest ih =>
      obtain ⟨k1, v1⟩ := p
      by_cases h : k1 = k
      · simpa [aerase, alookup, h] using ih
      · simpa [aerase, alookup, h] using ih

lemma alookup_aerase_ne (k j : String) (l : List (String × α))
    (h : j ≠ k) : alookup j (aerase k l) = alookup j l := by
  induction l with
  | nil => simp [aerase, alookup]
  | cons p rest ih =>
      obtain ⟨k1, v1⟩ := p
      by_cases hk : k1 = k
      · subst hk
        have hkj : ¬ k1 = j := fun hh => h hh.symm
        simp [aerase, alookup, hkj, ih]
      · by_cases hj : k1 = j
        · simp [aerase, alookup, hk, hj, h]
        · simp [aerase, alookup, hk, hj, ih]

lemma alookup_aerase_none (k j : String) (l : List (String × α))
    (h : alookup j l = none) : alookup j (aerase k l) = none := by
  by_cases hjk : j = k
  · subst hjk; exact alookup_aerase_self j l
  · rw [alookup_aerase_ne k j l hjk]; exact h

lemma not_mem_sdel_self (i : SessionId) (l : List SessionId) :
    i ∉ sdel i l := by
  induction l with
  | nil => simp [sdel]
  | cons y rest ih =>
      by_cases h : y = i
      · simpa [sdel, h] using ih
      · rw [sdel, if_neg h]
        intro hmem
        rcases List.mem_cons.mp hmem with h1 | h2
        · exact h h1.symm
        · exact ih h2

lemma mem_of_mem_sdel {j i : SessionId} {l : List SessionId}
    (h : j ∈ sdel i l) : j ∈ l := by
  induction l with
  | nil => simp [sdel] at h
  | cons y rest ih =>
      by_cases hy : y = i
      · rw [sdel, if_pos hy] at h
        exact List.mem_cons_of_mem y (ih h)
      · rw [sdel, if_neg hy] at h
        rcases List.mem_cons.mp h with h1 | h2
        · exact h1 ▸ List.mem_cons_self y rest
        · exact List.mem_cons_of_mem y (ih h2)

lemma nodup_sdel (i : SessionId) (l : List SessionId) (h : l.Nodup) :
    (sdel i l).Nodup := by
  induction l with
  | nil => simp [sdel]
  | cons y rest ih =>
      obtain ⟨hy, hrest⟩ := List.nodup_cons.mp h
      by_cases hyi : y = i
      · rw [sdel, if_pos hyi]; exact ih hrest
      · rw [sdel, if_neg hyi]
        exact List.nodup_cons.mpr ⟨fun hm => hy (mem_of_mem_sdel hm), ih hrest⟩

lemma notMember_delMember (j i : SessionId) (room : String)
    (rooms : List (String × List SessionId))
    (h : j ∉ (alookup room rooms).getD []) :
    j ∉ (alookup room (delMember room i rooms)).getD [] := by
  unfold delMember
  cases hr : alookup room rooms with
  | none => exact h
  | some set =>
      rw [alookup_aupdate_self]
      intro hm
      exact h (by simp only [hr, Option.getD_some]; exact mem_of_mem_sdel hm)

lemma self_notMember_delMember (j : SessionId) (room : String)
    (rooms : List (String × List SessionId)) :
    j ∉ (alookup room (delMember room j rooms)).getD [] := by
  unfold delMember
  cases hr : alookup room rooms with
  | none => simp [hr]
  | some set =>
      rw [alookup_aupdate_self]
      exact not_mem_sdel_self j set

lemma bcastLoop_snd (fails : SessionId → Bool) (payload : OutMsg)
    (exceptId : Option SessionId) (room : String) (st0 : ServerState) :
    ∀ (l : List SessionId) (st : ServerState) (acc : Output),
      l.Nodup →
      (∀ i ∈ l, alookup i st.clients = alookup i st0.clients) →
      (bcastLoop fails payload exceptId room l st acc).2
        = acc ++ (l.filter (wouldDeliver fails st0 exceptId)).map
            (fun i => (i, payload)) := by
  intro l
  induction l with
  | nil =>
      intro st acc _ _
      simp [bcastLoop]
  | cons i rest ih =>
      intro st acc hnd hag
      have hagi : alookup i st.clients = alookup i st0.clients :=
        hag i (List.mem_cons_self i rest)
      obtain ⟨hnmem, hndr⟩ := List.nodup_cons.mp hnd
      have hagr : ∀ j ∈ rest, alookup j st.clients = alookup j st0.clients :=
        fun j hj => hag j (List.mem_cons_of_mem i hj)
      have hagr2 : ∀ j ∈ rest,
          alookup j (aerase i st.clients) = alookup j st0.clients := by
        intro j hj
        have hji : j ≠ i := fun hh => hnmem (hh ▸ hj)
        rw [alookup_aerase_ne i j _ hji]
        exact hagr j hj
      rw [bcastLoop]
      split
      next hexc =>
        have hwd : wouldDeliver fails st0 exceptId i = false := by
          simp [wouldDeliver, hexc]
        rw [ih st acc hndr hagr]
        simp [List.filter_cons, hwd]
      next hexc =>
        split
        next heq =>
          have h0 : alookup i st0.clients = none := hagi.symm.trans heq
          have hwd : wouldDeliver fails st0 exceptId i = false := by
            simp [wouldDeliver, hexc, deliverable, h0]
          rw [ih { st with rooms := delMember room i st.rooms } acc hndr hagr]
          simp [List.filter_cons, hwd]
        next c heq =>
          have hsome : alookup i st0.clients = some c := hagi.symm.trans heq
          split
          next hop =>
            have hwd : wouldDeliver fails st0 exceptId i = false := by
              simp [wouldDeliver, hexc, deliverable, hsome, hop]
            rw [ih { st with rooms := delMember room i st.rooms,
                             clients := aerase i st.clients } acc hndr hagr2]
            simp [List.filter_cons, hwd]
          next hop =>
            have hop2 : c.wsOpen = true := by
              revert hop; cases c.wsOpen <;> simp
            split
            next hfail =>
              have hwd : wouldDeliver fails st0 exceptId i = false := by
                simp [wouldDeliver, hexc, deliverable, hsome, hop2, hfail]
              rw [ih { st with rooms := delMember room i st.rooms,
                               clients := aerase i st.clients } acc hndr hagr2]
              simp [List.filter_cons, hwd]
            next hfail =>
              have hf : fails i = false := by
                revert hfail; cases fails i <;> simp
              have hwd : wouldDeliver fails st0 exceptId i = true := by
                simp [wouldDeliver, hexc, deliverable, hsome, hop2, hf]
              rw [ih st (acc ++ [(i, payload)]) hndr hagr]
              simp [List.filter_cons, hwd]

lemma bcastLoop_none (fails : SessionId → Bool) (payload : OutMsg)
    (exceptId : Option SessionId) (room : String) (j : SessionId) :
    ∀ (l : List SessionId) (st : ServerState) (acc : Output),
      alookup j st.clients = none →
      alookup j ((bcastLoop fails payload exceptId room l st acc).1).clients
        = none := by
  intro l
  induction l with
  | nil =>
      intro st acc h
      simpa [bcastLoop] using h
  | cons i rest ih =>
      intro st acc h
      rw [bcastLoop]
      split
      next => exact ih st acc h
      next =>
        split
        next => exact ih _ acc h
        next c heq =>
          split
          next => exact ih _ acc (alookup_aerase_none i j _ h)
          next =>
            split
            next => exact ih _ acc (alookup_aerase_none i j _ h)
            next => exact ih _ _ h

lemma bcastLoop_notMember (fails : SessionId → Bool) (payload : OutMsg)
    (exceptId : Option SessionId) (room : String) (j : SessionId) :
    ∀ (l : List SessionId) (st : ServerState) (acc : Output),
      j ∉ membersOf room st →
      j ∉ membersOf room ((bcastLoop fails payload exceptId room l st acc).1) := by
  intro l
  induction l with
  | nil =>
      intro st acc h
      simpa [bcastLoop] using h
  | cons i rest ih =>
      intro st acc h
      rw [bcastLoop]
      split
      next => exact ih st acc h
      next =>
        split
        next => exact ih _ acc (notMember_delMember j i room st.rooms h)
        next c heq =>
          split
          next => exact ih _ acc (notMember_delMember j i room st.rooms h)
          next =>
            split
            next => exact ih _ acc (notMember_delMember j i room st.rooms h)
            next => exact ih _ _ h

lemma bcastLoop_alive (fails : SessionId → Bool) (payload : OutMsg)
    (exceptId : Option SessionId) (room : String) (j : SessionId) (c : Client)
    (hop : c.wsOpen = true) (hf : fails j = false) :
    ∀ (l : List SessionId) (st : ServerState) (acc : Output),
      alookup j st.clients = some c →
      alookup j ((bcastLoop fails payload exceptId room l st acc).1).clients
        = some c := by
  intro l
  induction l with
  | nil =>
      intro st acc h
      simpa [bcastLoop] using h
  | cons i rest ih =>
      intro st acc h
      rw [bcastLoop]
      split
      next => exact ih st acc h
      next =>
        split
        next => exact ih _ acc h
        next ci heq =>
          split
          next hopi =>
            have hij : i ≠ j := by
              intro hh
              subst hh
              rw [heq] at h
              injection h with h2
              rw [h2] at hopi
              rw [hop] at hopi
              cases hopi
            exact ih _ acc (by rw [alookup_aerase_ne i j _ (fun hh => hij hh.symm)]; exact h)
          next =>
            split
            next hfaili =>
              have hij : i ≠ j := by
                intro hh
                subst hh
                rw [hf] at hfaili
                cases hfaili
              exact ih _ acc (by rw [alookup_aerase_ne i j _ (fun hh => hij hh.symm)]; exact h)
            next => exact ih _ _ h

lemma bcastLoop_reconcile (fails : SessionId → Bool) (payload : OutMsg)
    (exceptId : Option SessionId) (room : String) (st0 : ServerState) :
    ∀ (l : List SessionId) (st : ServerState) (acc : Output),
      l.Nodup →
      (∀ i ∈ l, alookup i st.clients = alookup i st0.clients) →
      ∀ j ∈ l, exceptId ≠ some j → deliverable fails st0 j = false →
        alookup j ((bcastLoop fails payload exceptId room l st acc).1).clients
            = none
          ∧ j ∉ membersOf room ((bcastLoop fails payload exceptId room l st acc).1) := by
  intro l
  induction l with
  | nil =>
      intro st acc _ _ j hj
      exact absurd hj (List.not_mem_nil j)
  | cons i rest ih =>
      intro st acc hnd hag j hjmem hjexc hjdead
      have hagi : alookup i st.clients = alookup i st0.clients :=
        hag i (List.mem_cons_self i rest)
      obtain ⟨hnmem, hndr⟩ := List.nodup_cons.mp hnd
      have hagr : ∀ k ∈ rest, alookup k st.clients = alookup k st0.clients :=
        fun k hk => hag k (List.mem_cons_of_mem i hk)
      have hagr2 : ∀ k ∈ rest,
          alookup k (aerase i st.clients) = alookup k st0.clients := by
        intro k hk
        have hki : k ≠ i := fun hh => hnmem (hh ▸ hk)
        rw [alookup_aerase_ne i k _ hki]
        exact hagr k hk
      rcases List.mem_cons.mp hjmem with hji | hjr
      · subst hji
        rw [bcastLoop]
        split
        next hexc => exact absurd hexc.symm (fun hh => hjexc hh.symm)
        next hexc =>
          split
          next heq =>
            refine ⟨bcastLoop_none fails payload exceptId room j rest _ acc ?_,
              bcastLoop_notMember fails payload exceptId room j rest _ acc ?_⟩
            · exact heq
            · exact self_notMember_delMember j room st.rooms
          next c heq =>
            have hsome : alookup j st0.clients = some c := hagi.symm.trans heq
            simp only [deliverable, hsome] at hjdead
            split
            next hop =>
              refine ⟨bcastLoop_none fails payload exceptId room j rest _ acc ?_,
                bcastLoop_notMember fails payload exceptId room j rest _ acc ?_⟩
              · exact alookup_aerase_self j st.clients
              · exact self_notMember_delMember j room st.rooms
            next hop =>
              have hop2 : c.wsOpen = true := by
                revert hop; cases c.wsOpen <;> simp
              split
              next hfail =>
                refine ⟨bcastLoop_none fails payload exceptId room j rest _ acc ?_,
                  bcastLoop_notMember fails payload exceptId room j rest _ acc ?_⟩
                · exact alookup_aerase_self j st.clients
                · exact self_notMember_delMember j room st.rooms
              next hfail =>
                have hfj : fails j = false := by
                  revert hfail; cases fails j <;> simp
                simp [hop2, hfj] at hjdead
      · rw [bcastLoop]
        split
        next => exact ih st acc hndr hagr j hjr hjexc hjdead
        next =>
          split
          next =>
            exact ih { st with rooms := delMember room i st.rooms } acc
              hndr hagr j hjr hjexc hjdead
          next c heq =>
            split
            next =>
              exact ih { st with rooms := delMember room i st.rooms,
                                 clients := aerase i st.clients } acc
                hndr hagr2 j hjr hjexc hjdead
            next =>
              split
              next =>
                exact ih { st with rooms := delMember room i st.rooms,
                                   clients := aerase i st.clients } acc
                  hndr hagr2 j hjr hjexc hjdead
              next =>
                exact ih st (acc ++ [(i, payload)]) hndr hagr j hjr hjexc hjdead

lemma broadcast_snd (fails : SessionId → Bool) (room : String)
    (payload : OutMsg) (exceptId : Option SessionId) (st : ServerState)
    (set : List SessionId)
    (hset : alookup room st.rooms = some set) (hnd : set.Nodup) :
    (broadcastToRoom fails room payload exceptId st).2
      = (set.filter (wouldDeliver fails st exceptId)).map
          (fun i => (i, payload)) := by
  unfold broadcastToRoom
  rw [hset]
  exact bcastLoop_snd fails payload exceptId room st set st [] hnd
    (fun _ _ => rfl)

lemma broadcast_alive (fails : SessionId → Bool) (room : String)
    (payload : OutMsg) (exceptId : Option SessionId) (st : ServerState)
    (j : SessionId) (c : Client)
    (hop : c.wsOpen = true) (hf : fails j = false)
    (h : alookup j st.clients = some c) :
    alookup j ((broadcastToRoom fails room payload exceptId st).1).clients
      = some c := by
  unfold broadcastToRoom
  cases hset : alookup room st.rooms with
  | none => exact h
  | some set =>
      exact bcastLoop_alive fails payload exceptId room j c hop hf set st [] h

lemma ofBase36_aux : ∀ (fuel n : Nat), n ≤ fuel →
    ofBase36 (base36DigitsAux fuel n) = n := by
  intro fuel
  induction fuel with
  | zero =>
      intro n hn
      have h0 : n = 0 := Nat.le_zero.mp hn
      subst h0
      simp [base36DigitsAux, ofBase36]
  | succ f ih =>
      intro n hn
      by_cases h0 : n = 0
      · subst h0
        simp [base36DigitsAux, ofBase36]
      · rw [base36DigitsAux, if_neg h0]
        simp only [ofBase36]
        have hlt : n / 36 < n := Nat.div_lt_self (Nat.pos_of_ne_zero h0) (by norm_num)
        rw [ih (n / 36) (by omega)]
        exact Nat.mod_add_div n 36

lemma ofBase36_base36Digits (n : Nat) : ofBase36 (base36Digits n) = n :=
  ofBase36_aux n n le_rfl

lemma base36Digits_inj {a b : Nat} (h : base36Digits a = base36Digits b) :
    a = b := by
  have ha := ofBase36_base36Digits a
  have hb := ofBase36_base36Digits b
  rw [← ha, ← hb, h]

lemma base36DigitsAux_lt : ∀ (fuel n : Nat), ∀ d ∈ base36DigitsAux fuel n,
    d < 36 := by
  intro fuel
  induction fuel with
  | zero => intro n d hd; simp [base36DigitsAux] at hd
  | succ f ih =>
      intro n d hd
      by_cases h0 : n = 0
      · subst h0; simp [base36DigitsAux] at hd
      · rw [base36DigitsAux, if_neg h0] at hd
        rcases List.mem_cons.mp hd with h1 | h2
        · subst h1; exact Nat.mod_lt n (by norm_num)
        · exact ih (n / 36) d h2

lemma base36Digits_lt (n : Nat) : ∀ d ∈ base36Digits n, d < 36 :=
  base36DigitsAux_lt n n

lemma digitChar36_inj : ∀ a < 36, ∀ b < 36,
    digitChar36 a = digitChar36 b → a = b := by decide

lemma map_digitChar36_inj : ∀ (l1 l2 : List Nat),
    (∀ x ∈ l1, x < 36) → (∀ x ∈ l2, x < 36) →
    l1.map digitChar36 = l2.map digitChar36 → l1 = l2 := by
  intro l1
  induction l1 with
  | nil =>
      intro l2 _ _ h
      cases l2 with
      | nil => rfl
      | cons y ys => simp at h
  | cons x xs ih =>
      intro l2 h1 h2 h
      cases l2 with
      | nil => simp at h
      | cons y ys =>
          simp only [List.map_cons, List.cons.injEq] at h
          have hx : x = y :=
            digitChar36_inj x (h1 x (List.mem_cons_self x xs))
              y (h2 y (List.mem_cons_self y ys)) h.1
          have hxs : xs = ys :=
            ih ys (fun z hz => h1 z (List.mem_cons_of_mem x hz))
              (fun z hz => h2 z (List.mem_cons_of_mem y hz)) h.2
          rw [hx, hxs]

lemma base36Digits_singleton {n d : Nat} (h : base36Digits n = [d]) :
    n = d := by
  have := ofBase36_base36Digits n
  rw [h] at this
  simp [ofBase36] at this
  omega

lemma natToBase36_inj {a b : Nat} (h : natToBase36 a = natToBase36 b) :
    a = b := by
  unfold natToBase36 at h
  by_cases ha : a = 0 <;> by_cases hb : b = 0
  · rw [ha, hb]
  · rw [if_pos ha, if_neg hb] at h
    have hd : ("0" : String).data = ((base36Digits b).reverse.map digitChar36) := by
      rw [h]
    have hlen : 1 = (base36Digits b).length := by
      have := congrArg List.length hd
      simpa using this
    obtain ⟨d, hdig⟩ : ∃ d, base36Digits b = [d] := by
      cases hdig : base36Digits b with
      | nil => rw [hdig] at hlen; simp at hlen
      | cons x xs =>
          cases xs with
          | nil => exact ⟨x, rfl⟩
          | cons y ys => rw [hdig] at hlen; simp at hlen
    rw [hdig] at hd
    simp only [List.reverse_cons, List.reverse_nil, List.nil_append,
      List.map_cons, List.map_nil] at hd
    have hchar : digitChar36 0 = digitChar36 d := by
      have : ("0" : String).data = [digitChar36 d] := hd
      simpa [digitChar36] using this
    have hd36 : d < 36 := base36Digits_lt b d (by rw [hdig]; exact List.mem_cons_self d [])
    have : (0 : Nat) = d := digitChar36_inj 0 (by norm_num) d hd36 hchar
    have hbd : b = d := base36Digits_singleton hdig
    omega
  · rw [if_neg ha, if_pos hb] at h
    have hd : ((base36Digits a).reverse.map digitChar36) = ("0" : String).data := by
      rw [← h]
    have hlen : (base36Digits a).length = 1 := by
      have := congrArg List.length hd
      simpa using this
    obtain ⟨d, hdig⟩ : ∃ d, base36Digits a = [d] := by
      cases hdig : base36Digits a with
      | nil => rw [hdig] at hlen; simp at hlen
      | cons x xs =>
          cases xs with
          | nil => exact ⟨x, rfl⟩
          | cons y ys => rw [hdig] at hlen; simp at hlen
    rw [hdig] at hd
    simp only [List.reverse_cons, List.reverse_nil, List.nil_append,
      List.map_cons, List.map_nil] at hd
    have hchar : digitChar36 d = digitChar36 0 := by
      have : [digitChar36 d] = ("0" : String).data := hd
      simpa [digitChar36] using this
    have hd36 : d < 36 := base36Digits_lt a d (by rw [hdig]; exact List.mem_cons_self d [])
    have : d = (0 : Nat) := digitChar36_inj d hd36 0 (by norm_num) hchar
    have had : a = d := base36Digits_singleton hdig
    omega
  · rw [if_neg ha, if_neg hb] at h
    have hd : ((base36Digits a).reverse.map digitChar36)
        = ((base36Digits b).reverse.map digitChar36) := by
      injection h
    have hrev : (base36Digits a).reverse = (base36Digits b).reverse :=
      map_digitChar36_inj _ _
        (fun x hx => base36Digits_lt a x (List.mem_reverse.mp hx))
        (fun x hx => base36Digits_lt b x (List.mem_reverse.mp hx)) hd
    exact base36Digits_inj (List.reverse_injective hrev)

lemma alookup_filter_prop {α : Type} (p : String × α → Bool)
    (l : List (String × α)) (k : String) (v : α)
    (h : alookup k (l.filter p) = some v) : p (k, v) = true := by
  induction l with
  | nil => simp [alookup] at h
  | cons q rest ih =>
      obtain ⟨k1, v1⟩ := q
      by_cases hp : p (k1, v1)
      · rw [List.filter_cons_of_pos hp] at h
        by_cases hk : k1 = k
        · subst hk
          simp [alookup] at h
          exact h ▸ hp
        · rw [alookup, if_neg hk] at h
          exact ih h
      · rw [List.filter_cons_of_neg (by simpa using hp)] at h
        exact ih h

lemma handleClose_of_absent (fails : SessionId → Bool) (id : SessionId)
    (st : ServerState) (h : alookup id st.clients = none) :
    handleClose fails id st = (st, []) := by
  unfold handleClose
  rw [h]

lemma handleClose_clients_self (fails : SessionId → Bool) (id : SessionId)
    (st : ServerState) :
    alookup id ((handleClose fails id st).1).clients = none := by
  unfold handleClose
  split
  next heq => exact heq
  next client heq =>
    split
    next room hroom =>
      split
      next => exact alookup_aerase_self id st.clients
      next =>
        split
        next set hset => exact alookup_aerase_self id _
        next hset => exact alookup_aerase_self id st.clients
    next hroom => exact alookup_aerase_self id st.clients

lemma handleClose_idem (fails fails2 : SessionId → Bool) (id : SessionId)
    (st : ServerState) :
    handleClose fails2 id ((handleClose fails id st).1)
      = ((handleClose fails id st).1, []) :=
  handleClose_of_absent fails2 id _ (handleClose_clients_self fails id st)

lemma handleClose_no_empty (fails : SessionId → Bool) (id : SessionId)
    (st : ServerState) (client : Client) (r : String)
    (hc : alookup id st.clients = some client) (hr : client.room = some r)
    (hne : ¬ r = "") :
    alookup r ((handleClose fails id st).1).rooms ≠ some [] := by
  simp only [handleClose, hc, hr, if_neg hne]
  cases hset : alookup r st.rooms with
  | none => simp [hset]
  | some set =>
      simp only [hset]
      split
      next set2 hset2 =>
        split
        next h2 =>
          rw [alookup_aerase_self]
          simp
        next h2 =>
          rw [hset2]
          intro hh
          injection hh with hh2
          exact h2 hh2
      next hset2 =>
        rw [hset2]
        simp

lemma sweepEmpty_no_empty (st : ServerState) (r : String) :
    alookup r (sweepEmpty st).rooms ≠ some [] := by
  intro h
  have h2 : alookup r (st.rooms.filter (fun p => !p.2.isEmpty)) = some [] := h
  have := alookup_filter_prop (fun p => !p.2.isEmpty) st.rooms r [] h2
  simp at this

lemma bcastLoop_out_shape (fails : SessionId → Bool) (payload : OutMsg)
    (exceptId : Option SessionId) (room : String) :
    ∀ (l : List SessionId) (st : ServerState) (acc : Output),
      ∀ p ∈ (bcastLoop fails payload exceptId room l st acc).2,
        p ∈ acc ∨ p.2 = payload := by
  intro l
  induction l with
  | nil =>
      intro st acc p hp
      rw [bcastLoop] at hp
      exact Or.inl hp
  | cons i rest ih =>
      intro st acc p hp
      rw [bcastLoop] at hp
      split at hp
      next => exact ih st acc p hp
      next =>
        split at hp
        next => exact ih _ acc p hp
        next c heq =>
          split at hp
          next => exact ih _ acc p hp
          next =>
            split at hp
            next => exact ih _ acc p hp
            next =>
              rcases ih st (acc ++ [(i, payload)]) p hp with hin | hpay
              · rcases List.mem_append.mp hin with h1 | h2
                · exact Or.inl h1
                · rcases List.mem_singleton.mp h2 with rfl
                  exact Or.inr rfl
              · exact Or.inr hpay

lemma broadcast_out_shape (fails : SessionId → Bool) (room : String)
    (payload : OutMsg) (exceptId : Option SessionId) (st : ServerState) :
    ∀ p ∈ (broadcastToRoom fails room payload exceptId st).2, p.2 = payload := by
  intro p hp
  unfold broadcastToRoom at hp
  cases hset : alookup room st.rooms with
  | none => rw [hset] at hp; simp at hp
  | some set =>
      rw [hset] at hp
      rcases bcastLoop_out_shape fails payload exceptId room set st [] p hp with h1 | h2
      · simp at h1
      · exact h2

lemma filter_wouldDeliver_update (fails : SessionId → Bool) (st : ServerState)
    (exceptId : Option SessionId) (id : SessionId) (client c1 : Client)
    (set : List SessionId)
    (hc : alookup id st.clients = some client)
    (hop : c1.wsOpen = client.wsOpen) :
    set.filter
        (wouldDeliver fails { st with clients := aupdate id c1 st.clients } exceptId)
      = set.filter (wouldDeliver fails st exceptId) := by
  apply List.filter_congr
  intro j _
  by_cases hji : j = id
  · subst hji
    simp [wouldDeliver, deliverable, alookup_aupdate_self, hc, hop]
  · simp [wouldDeliver, deliverable, alookup_aupdate_ne id j c1 st.clients hji]

/-- C1: a session id must appear in a room's member set iff that room is
the session's room field, and in at most one set; on the concrete trace
connect s1, join room a, join room b, the join handler of server.js
leaves s1 in room a's member set while s1's room field is b and s1 is
also in room b's set, violating both bidirectional consistency and
at-most-one-room. -/
theorem claim_C1_dual_room_membership :
    "s1" ∈ membersOf "a" trace3 ∧ "s1" ∈ membersOf "b" trace3
    ∧ (alookup "s1" trace3.clients).map Client.room = some (some "b") := by
  decide

/-- C2 counterexample: on the reachable state trace4, where room a's set
holds only the stale id s1 and the registry is empty, broadcastToRoom
removes the last member during dead-entry reconciliation yet returns
with the emptied room entry still present, so broadcast reconciliation
does not delete the room entry before it returns. -/
theorem claim_C2_counterexample :
    membersOf "a" trace4 = ["s1"] ∧ trace4.clients = []
    ∧ alookup "a"
        ((broadcastToRoom noFail "a" (OutMsg.playerLeft "s1") none trace4).1).rooms
        = some [] := by
  decide

/-- C2 amended: the departure cleanup (close handler) never returns with
an empty member set still recorded under the departed session's room,
and the periodic sweep deletes every empty room entry; rooms emptied by
dead-socket reconciliation inside broadcastToRoom are deferred to those
two paths rather than deleted before the broadcast returns. -/
theorem claim_C2_room_deletion_paths (fails : SessionId → Bool)
    (id : SessionId) (st : ServerState) (client : Client) (r : String)
    (hc : alookup id st.clients = some client) (hr : client.room = some r)
    (hne : ¬ r = "") :
    alookup r ((handleClose fails id st).1).rooms ≠ some []
    ∧ ∀ (st2 : ServerState) (r2 : String),
        alookup r2 (sweepEmpty st2).rooms ≠ some [] :=
  ⟨handleClose_no_empty fails id st client r hc hr hne,
   fun st2 r2 => sweepEmpty_no_empty st2 r2⟩

/-- C2 witness: the deletion guarantees instantiated at a departure of
session a from the two-member room r. -/
theorem claim_C2_witness :
    alookup "r" ((handleClose noFail "a" stAB).1).rooms ≠ some []
    ∧ ∀ (st2 : ServerState) (r2 : String),
        alookup r2 (sweepEmpty st2).rooms ≠ some [] :=
  claim_C2_room_deletion_paths noFail "a" stAB cA "r" (by decide) (by decide)
    (by decide)

/-- C3: broadcastToRoom delivers the payload to exactly the snapshot
members of the room that are registered, open and whose send does not
throw, minus the excluded id, and to nobody else (the filter-map
equation), and every non-excluded member found absent, closed or
failing is reconciled out of both the registry and the room set without
aborting delivery to the remaining targets. -/
theorem claim_C3_broadcast_exclusion (fails : SessionId → Bool) (room : String)
    (payload : OutMsg) (exceptId : Option SessionId) (st : ServerState)
    (set : List SessionId)
    (hset : alookup room st.rooms = some set) (hnd : set.Nodup) :
    (broadcastToRoom fails room payload exceptId st).2
        = (set.filter (wouldDeliver fails st exceptId)).map (fun i => (i, payload))
    ∧ ∀ j ∈ set, exceptId ≠ some j → deliverable fails st j = false →
        alookup j ((broadcastToRoom fails room payload exceptId st).1).clients
            = none
        ∧ j ∉ membersOf room ((broadcastToRoom fails room payload exceptId st).1) := by
  constructor
  · exact broadcast_snd fails room payload exceptId st set hset hnd
  · intro j hj hjexc hjdead
    have hb : broadcastToRoom fails room payload exceptId st
        = bcastLoop fails payload exceptId room set st [] := by
      unfold broadcastToRoom
      rw [hset]
    rw [hb]
    exact bcastLoop_reconcile fails payload exceptId room st set st [] hnd
      (fun _ _ => rfl) j hj hjexc hjdead

/-- C3 witness: reconciliation of the dead member b of the mixed room,
instantiated from the broadcast-exclusion theorem. -/
theorem claim_C3_witness :
    alookup "b"
        ((broadcastToRoom noFail "r" (OutMsg.playerLeft "z") none stMix).1).clients
        = none
    ∧ "b" ∉ membersOf "r"
        ((broadcastToRoom noFail "r" (OutMsg.playerLeft "z") none stMix).1) :=
  (claim_C3_broadcast_exclusion noFail "r" (OutMsg.playerLeft "z") none stMix
    ["a", "b", "g"] (by decide) (by decide)).2 "b" (by decide) (by decide)
    (by decide)

/-- C9: a position update arriving less than 30 ms after the session's
last accepted position update is dropped atomically: the state is
completely unchanged (no field, including the rate-limit timestamp, is
applied) and nothing is sent. -/
theorem claim_C9_pos_gate_all_or_nothing (fails : SessionId → Bool)
    (id : SessionId) (t : Nat) (msg : PosMsg) (st : ServerState)
    (client : Client)
    (hc : alookup id st.clients = some client)
    (hgate : t - client.lastPosAt < 30) :
    handlePos fails id t msg st = (st, []) := by
  simp only [handlePos, hc, if_pos hgate]

/-- C9 witness: a position update with a new x and a tripped gate leaves
the two-member state untouched and silent. -/
theorem claim_C9_witness :
    handlePos noFail "a" 60 posMsg5 stAB = (stAB, []) :=
  claim_C9_pos_gate_all_or_nothing noFail "a" 60 posMsg5 stAB cA (by decide)
    (by decide)

/-- C10: a chat that passes the 300 ms gate but is dropped for being
whitespace-only still stores the new rate-limit timestamp and emits
nothing, and any chat (with any text) arriving within 300 ms of that
silent drop is itself dropped. -/
theorem claim_C10_empty_chat_resets_gate (fails fails2 : SessionId → Bool)
    (id : SessionId) (t : Nat) (msg : ChatMsg) (st : ServerState)
    (client : Client)
    (hc : alookup id st.clients = some client)
    (hgate : ¬ (t - client.lastChatAt < 300))
    (hempty : strTrim (msg.text.getD "") = "") :
    (handleChat fails id t msg st).2 = []
    ∧ alookup id ((handleChat fails id t msg st).1).clients
        = some { client with lastChatAt := t }
    ∧ (∀ (t2 : Nat) (msg2 : ChatMsg), t2 - t < 300 →
        handleChat fails2 id t2 msg2 ((handleChat fails id t msg st).1)
          = ((handleChat fails id t msg st).1, [])) := by
  have hred : handleChat fails id t msg st
      = ({ st with clients := aupdate id { client with lastChatAt := t } st.clients },
          []) := by
    simp only [handleChat, hc, if_neg hgate, if_pos hempty]
  refine ⟨by rw [hred], ?_, ?_⟩
  · rw [hred]
    exact alookup_aupdate_self id _ st.clients
  · intro t2 msg2 h2
    rw [hred]
    have hlk : alookup id (aupdate id { client with lastChatAt := t } st.clients)
        = some { client with lastChatAt := t } :=
      alookup_aupdate_self id _ st.clients
    have hg2 : t2 - ({ client with lastChatAt := t } : Client).lastChatAt < 300 := by
      simpa using h2
    simp only [handleChat, hlk, if_pos hg2]

/-- C10 witness: a whitespace chat from b at 400 ms silently stores the
timestamp, after which a chat within 300 ms is dropped. -/
theorem claim_C10_witness :
    (handleChat noFail "b" 400 chatWs stAB).2 = []
    ∧ alookup "b" ((handleChat noFail "b" 400 chatWs stAB).1).clients
        = some { cB with lastChatAt := 400 }
    ∧ (∀ (t2 : Nat) (msg2 : ChatMsg), t2 - 400 < 300 →
        handleChat noFail "b" t2 msg2 ((handleChat noFail "b" 400 chatWs stAB).1)
          = ((handleChat noFail "b" 400 chatWs stAB).1, [])) :=
  claim_C10_empty_chat_resets_gate noFail noFail "b" 400 chatWs stAB cB
    (by decide) (by decide) (by decide)

lemma strLen_strTake (s : String) (n : Nat) :
    strLen (strTake s n) = min n (strLen s) := by
  show (String.mk (s.data.take n)).data.length = min n s.data.length
  have h : (String.mk (s.data.take n)).data = s.data.take n := rfl
  rw [h, List.length_take]

lemma chatText_le (msg : ChatMsg) : strLen (chatText msg) ≤ 500 := by
  simp only [chatText]
  by_cases hlen : strLen (strTrim (msg.text.getD "")) > 500
  · rw [if_pos hlen, strLen_strTake]
    omega
  · rw [if_neg hlen]
    omega

lemma chatText_eq_500 (msg : ChatMsg)
    (hbig : 500 < strLen (strTrim (msg.text.getD ""))) :
    strLen (chatText msg) = 500 := by
  simp only [chatText]
  rw [if_pos hbig, strLen_strTake]
  omega

/-- C4: with the session's last accepted chat recorded at T, a chat
arriving strictly before T plus 300 ms is dropped with no output and no
state change, and one arriving at or after T plus 300 ms whose text is
non-empty after trimming is accepted (the timestamp becomes the arrival
time) and its chat event is broadcast, reaching the sender's room. -/
theorem claim_C4_chat_rate_boundary (fails : SessionId → Bool)
    (id : SessionId) (t T : Nat) (msg : ChatMsg) (st : ServerState)
    (client : Client)
    (hc : alookup id st.clients = some client) (hT : client.lastChatAt = T) :
    (t < T + 300 → handleChat fails id t msg st = (st, []))
    ∧ (T + 300 ≤ t → strTrim (msg.text.getD "") ≠ "" →
        ∀ (r : String) (set : List SessionId),
          client.room = some r → alookup r st.rooms = some set →
          set.Nodup → id ∈ set → client.wsOpen = true → fails id = false →
          alookup id ((handleChat fails id t msg st).1).clients
              = some { client with lastChatAt := t }
            ∧ (id, OutMsg.chat id (chatName id client msg) (chatText msg))
                ∈ (handleChat fails id t msg st).2) := by
  constructor
  · intro hlt
    have hgate : t - client.lastChatAt < 300 := by omega
    simp only [handleChat, hc, if_pos hgate]
  · intro hge htrim r set hroom hset hnd hmem hop hf
    have hgate : ¬ (t - client.lastChatAt < 300) := by omega
    have hred : handleChat fails id t msg st
        = broadcastToRoom fails r
            (OutMsg.chat id (chatName id client msg) (chatText msg)) none
            { st with clients :=
                aupdate id { client with lastChatAt := t } st.clients } := by
      simp only [handleChat, hc, if_neg hgate, if_neg htrim, hroom]
    constructor
    · rw [hred]
      exact broadcast_alive fails r _ none _ id { client with lastChatAt := t }
        hop hf (alookup_aupdate_self id _ st.clients)
    · rw [hred]
      rw [broadcast_snd fails r
        (OutMsg.chat id (chatName id client msg) (chatText msg)) none
        { st with clients :=
            aupdate id { client with lastChatAt := t } st.clients }
        set hset hnd]
      have hwd : wouldDeliver fails
          { st with clients :=
              aupdate id { client with lastChatAt := t } st.clients }
          none id = true := by
        simp [wouldDeliver, deliverable, alookup_aupdate_self, hop, hf]
      exact List.mem_map.mpr ⟨id, List.mem_filter.mpr ⟨hmem, hwd⟩, rfl⟩

/-- C4 witness: with cA's last accepted chat at 1000 ms, a chat arriving
at 1300 ms is accepted, the timestamp is stored and the event reaches
the room. -/
theorem claim_C4_witness :
    alookup "a" ((handleChat noFail "a" 1300 chatHi stAB).1).clients
        = some { cA with lastChatAt := 1300 }
    ∧ ("a", OutMsg.chat "a" (chatName "a" cA chatHi) (chatText chatHi))
        ∈ (handleChat noFail "a" 1300 chatHi stAB).2 :=
  (claim_C4_chat_rate_boundary noFail "a" 1300 1000 chatHi stAB cA (by decide)
    (by decide)).2 (by decide) (by decide) "r" ["a", "b"] (by decide)
    (by decide) (by decide) (by decide) (by decide) (by decide)

/-- C5: past the rate gate, a chat whose text trims to empty produces no
output; every produced message is the chat event with the sender's id,
resolved name and sanitized text; the sanitized text never exceeds 500
characters and is exactly 500 when the trimmed text was longer; with a
room, the event goes to exactly the deliverable members of that room
with no exclusion (so the sender is included when deliverable); with no
room, it is echoed to the sender alone. -/
theorem claim_C5_chat_processing (fails : SessionId → Bool) (id : SessionId)
    (t : Nat) (msg : ChatMsg) (st : ServerState) (client : Client)
    (hc : alookup id st.clients = some client)
    (hgate : ¬ (t - client.lastChatAt < 300)) :
    (strTrim (msg.text.getD "") = "" → (handleChat fails id t msg st).2 = [])
    ∧ (∀ p ∈ (handleChat fails id t msg st).2,
        p.2 = OutMsg.chat id (chatName id client msg) (chatText msg))
    ∧ strLen (chatText msg) ≤ 500
    ∧ (500 < strLen (strTrim (msg.text.getD "")) → strLen (chatText msg) = 500)
    ∧ (∀ (r : String) (set : List SessionId), strTrim (msg.text.getD "") ≠ "" →
        client.room = some r → alookup r st.rooms = some set → set.Nodup →
        (handleChat fails id t msg st).2
          = (set.filter (wouldDeliver fails st none)).map
              (fun i => (i, OutMsg.chat id (chatName id client msg)
                (chatText msg))))
    ∧ (client.room = none → strTrim (msg.text.getD "") ≠ "" →
        (handleChat fails id t msg st).2
          = (if client.wsOpen && !fails id
             then [(id, OutMsg.chat id (chatName id client msg) (chatText msg))]
             else [])) := by
  refine ⟨?_, ?_, ?_, ?_, ?_, ?_⟩
  · intro hempty
    simp only [handleChat, hc, if_neg hgate, if_pos hempty]
  · intro p hp
    by_cases hempty : strTrim (msg.text.getD "") = ""
    · have hred : (handleChat fails id t msg st).2 = [] := by
        simp only [handleChat, hc, if_neg hgate, if_pos hempty]
      rw [hred] at hp
      simp at hp
    · cases hroom : client.room with
      | some r =>
          have hred : handleChat fails id t msg st
              = broadcastToRoom fails r
                  (OutMsg.chat id (chatName id client msg) (chatText msg)) none
                  { st with clients :=
                      aupdate id { client with lastChatAt := t } st.clients } := by
            simp only [handleChat, hc, if_neg hgate, if_neg hempty, hroom]
          rw [hred] at hp
          exact broadcast_out_shape fails r _ none _ p hp
      | none =>
          have hred : (handleChat fails id t msg st).2
              = (if client.wsOpen && !fails id
                 then [(id, OutMsg.chat id (chatName id client msg)
                     (chatText msg))]
                 else []) := by
            simp only [handleChat, hc, if_neg hgate, if_neg hempty, hroom]
          rw [hred] at hp
          by_cases hcond : (client.wsOpen && !fails id) = true
          · rw [if_pos hcond] at hp
            rcases List.mem_singleton.mp hp with rfl
            rfl
          · rw [if_neg hcond] at hp
            simp at hp
  · exact chatText_le msg
  · intro hbig
    exact chatText_eq_500 msg hbig
  · intro r set htrim hroom hset hnd
    have hred : handleChat fails id t msg st
        = broadcastToRoom fails r
            (OutMsg.chat id (chatName id client msg) (chatText msg)) none
            { st with clients :=
                aupdate id { client with lastChatAt := t } st.clients } := by
      simp only [handleChat, hc, if_neg hgate, if_neg htrim, hroom]
    rw [hred]
    rw [broadcast_snd fails r
      (OutMsg.chat id (chatName id client msg) (chatText msg)) none
      { st with clients :=
          aupdate id { client with lastChatAt := t } st.clients }
      set hset hnd]
    rw [filter_wouldDeliver_update fails st none id client
      { client with lastChatAt := t } set hc rfl]
  · intro hroom htrim
    simp only [handleChat, hc, if_neg hgate, if_neg htrim, hroom]

/-- C5 witness: the room-delivery equation instantiated for a chat from
a in the two-member room r. -/
theorem claim_C5_witness :
    (handleChat noFail "a" 1300 chatHi stAB).2
      = ((["a", "b"].filter (wouldDeliver noFail stAB none)).map
          (fun i => (i, OutMsg.chat "a" (chatName "a" cA chatHi)
            (chatText chatHi)))) :=
  ((claim_C5_chat_processing noFail "a" 1300 chatHi stAB cA (by decide)
    (by decide)).2.2.2.2).1 "r" ["a", "b"] (by decide) (by decide) (by decide)
    (by decide)

/-- C6: running the close handler a second time for the same session is
a no-op (same state, no output), every message the first run emits is
the playerLeft event, no remaining member receives it twice, and the
room entry is gone whenever the departure left its member set empty. -/
theorem claim_C6_idempotent_departure (fails fails2 : SessionId → Bool)
    (id : SessionId) (st : ServerState) (client : Client) (r : String)
    (set : List SessionId)
    (hc : alookup id st.clients = some client) (hr : client.room = some r)
    (hne : ¬ r = "") (hs : alookup r st.rooms = some set) (hnd : set.Nodup) :
    handleClose fails2 id ((handleClose fails id st).1)
        = ((handleClose fails id st).1, [])
    ∧ (∀ p ∈ (handleClose fails id st).2, p.2 = OutMsg.playerLeft id)
    ∧ ((handleClose fails id st).2.map Prod.fst).Nodup
    ∧ alookup r ((handleClose fails id st).1).rooms ≠ some [] := by
  have hout : (handleClose fails id st).2
      = (broadcastToRoom fails r (OutMsg.playerLeft id) none
          { st with rooms := aupdate r (sdel id set) st.rooms }).2 := by
    simp only [handleClose, hc, hr, if_neg hne, hs]
  have hsnd : (broadcastToRoom fails r (OutMsg.playerLeft id) none
      { st with rooms := aupdate r (sdel id set) st.rooms }).2
      = ((sdel id set).filter
          (wouldDeliver fails
            { st with rooms := aupdate r (sdel id set) st.rooms } none)).map
          (fun i => (i, OutMsg.playerLeft id)) :=
    broadcast_snd fails r (OutMsg.playerLeft id) none
      { st with rooms := aupdate r (sdel id set) st.rooms } (sdel id set)
      (alookup_aupdate_self r _ st.rooms) (nodup_sdel id set hnd)
  refine ⟨handleClose_idem fails fails2 id st, ?_, ?_,
    handleClose_no_empty fails id st client r hc hr hne⟩
  · intro p hp
    rw [hout, hsnd] at hp
    rcases List.mem_map.mp hp with ⟨i, _, rfl⟩
    rfl
  · rw [hout, hsnd, List.map_map]
    rw [show (Prod.fst ∘ fun i : SessionId => (i, OutMsg.playerLeft id))
        = (fun a : SessionId => a) from rfl]
    rw [List.map_id']
    exact (nodup_sdel id set hnd).filter _

/-- C6 witness: the idempotence and single-notification guarantees for
the departure of a from the two-member room r. -/
theorem claim_C6_witness :
    handleClose noFail "a" ((handleClose noFail "a" stAB).1)
        = ((handleClose noFail "a" stAB).1, [])
    ∧ (∀ p ∈ (handleClose noFail "a" stAB).2, p.2 = OutMsg.playerLeft "a")
    ∧ ((handleClose noFail "a" stAB).2.map Prod.fst).Nodup
    ∧ alookup "r" ((handleClose noFail "a" stAB).1).rooms ≠ some [] :=
  claim_C6_idempotent_departure noFail noFail "a" stAB cA "r" ["a", "b"]
    (by decide) (by decide) (by decide) (by decide) (by decide)

/-- C7 counterexample: the sole joiner of a fresh room receives a
players message whose list contains its own entry (the join handler
adds the id to the set before building the roster), not an empty list
as claimed, followed by the joined acknowledgement. -/
theorem claim_C7_counterexample :
    (handleJoin noFail "s1" 1 (joinMsgTo "lobby") trace1).2
        = [("s1", OutMsg.players [pZoe]), ("s1", OutMsg.joined "lobby")]
    ∧ ([pZoe] : List PlayerInfo) ≠ [] := by
  decide

/-- C7 amended: a connected session with an open socket that joins a
room with no existing entry receives exactly two messages in order: a
players message whose roster is the single entry describing the joiner
itself, then the joined acknowledgement naming the resolved room. -/
theorem claim_C7_sole_joiner_roster (fails : SessionId → Bool)
    (id : SessionId) (now : Nat) (msg : JoinMsg) (st : ServerState)
    (client : Client)
    (hc : alookup id st.clients = some client)
    (hop : client.wsOpen = true) (hf : fails id = false)
    (hroom : alookup (joinRoomName msg) st.rooms = none) :
    ∃ p : PlayerInfo, p.id = id ∧
      (handleJoin fails id now msg st).2
        = [(id, OutMsg.players [p]), (id, OutMsg.joined (joinRoomName msg))] := by
  have hjopen : (joinClient id now msg client).wsOpen = true := hop
  have e_roomAdd : roomAdd (joinRoomName msg) id st.rooms
      = aupdate (joinRoomName msg) [id] st.rooms := by
    unfold roomAdd
    rw [hroom]
  refine ⟨{ id := id,
            name := (joinClient id now msg client).name,
            avatar := orNull (joinClient id now msg client).avatar,
            x := (joinClient id now msg client).x,
            y := (joinClient id now msg client).y,
            size := if (joinClient id now msg client).size = 0 then 60
                    else (joinClient id now msg client).size,
            color := if (joinClient id now msg client).color = "" then "#e74c3c"
                     else (joinClient id now msg client).color }, rfl, ?_⟩
  simp [handleJoin, hc, e_roomAdd, sendPlayersListTo, playersOf, membersOf,
    broadcastToRoom, bcastLoop, alookup_aupdate_self, hjopen, hf,
    List.filterMap_cons, List.filterMap_nil]

/-- C7 witness: the amended roster shape for s1 joining the fresh room
lobby right after connecting. -/
theorem claim_C7_witness :
    ∃ p : PlayerInfo, p.id = "s1" ∧
      (handleJoin noFail "s1" 1 (joinMsgTo "lobby") trace1).2
        = [("s1", OutMsg.players [p]),
           ("s1", OutMsg.joined (joinRoomName (joinMsgTo "lobby")))] :=
  claim_C7_sole_joiner_roster noFail "s1" 1 (joinMsgTo "lobby") trace1 freshS1
    (by decide) (by decide) (by decide) (by decide)

/-- C8 counterexample: two session creations that consume the same time
and randomness inputs produce the same id, so a sequence of creations
is not pairwise distinct for all values of the consumed inputs. -/
theorem claim_C8_counterexample :
    ¬ ([makeId 12345 "abc123", makeId 12345 "abc123"].Nodup) := by
  decide

/-- C8 amended: makeId consumes only the server clock and the random
suffix, never client input, and two creations yield distinct ids
whenever they share the timestamp with different suffixes, or have
different timestamps with suffixes of equal length; only a coincidence
of both consumed inputs can collide. -/
theorem claim_C8_id_distinctness (t1 t2 : Nat) (r1 r2 : String)
    (h : (t1 = t2 ∧ r1 ≠ r2) ∨ (t1 ≠ t2 ∧ strLen r1 = strLen r2)) :
    makeId t1 r1 ≠ makeId t2 r2 := by
  intro heq
  unfold makeId at heq
  have hmk : ∀ s : String, String.mk s.data = s := fun s => by cases s; rfl
  have hdata : (natToBase36 t1).data ++ r1.data
      = (natToBase36 t2).data ++ r2.data := by
    have h1 := congrArg String.data heq
    rwa [String.data_append, String.data_append] at h1
  rcases h with ⟨hteq, hrne⟩ | ⟨htne, hlen⟩
  · subst hteq
    have hr : r1.data = r2.data := List.append_cancel_left hdata
    exact hrne (by rw [← hmk r1, ← hmk r2, hr])
  · have hrl : r1.data.length = r2.data.length := hlen
    have hlen2 : (natToBase36 t1).data.length = (natToBase36 t2).data.length := by
      have h2 := congrArg List.length hdata
      simp only [List.length_append] at h2
      omega
    obtain ⟨hpre, _⟩ := List.append_inj hdata hlen2
    have hnb : natToBase36 t1 = natToBase36 t2 := by
      have h3 := congrArg String.mk hpre
      rwa [hmk, hmk] at h3
    exact htne (natToBase36_inj hnb)

/-- C8 witness: two creations in the same millisecond with different
random suffixes give different ids. -/
theorem claim_C8_witness : makeId 0 "a" ≠ makeId 0 "b" :=
  claim_C8_id_distinctness 0 0 "a" "b" (Or.inl ⟨rfl, by decide⟩)

end GrassyWanderer
